import Mathlib

/-!
Verification of the ClassHub application core (src/app.py) against its
natural-language specification.

The relational store (sqlite tables created in init_db) is embedded as a
structure of row lists; AUTOINCREMENT primary keys are modelled as
max-id-plus-one.  Each request handler that the claims mention is embedded
as a pure function from the store (plus the request data and the session
identity) to a new store together with an outcome value.  Timestamps are
opaque strings, as in the source (ISO-8601 strings).  REAL scores are
modelled as rationals.

For the transactional claims, quiz handlers are additionally embedded as a
list of primitive database actions (single-statement writes and commits),
run against a committed/pending pair of stores: a write mutates only the
pending store, a commit publishes the pending store, and aborting an
execution discards the pending store, which is exactly sqlite rollback of
an open implicit transaction when the connection closes uncommitted.
-/

namespace ClassHub

/-- Python str.lower on the ASCII range, as applied to submitted emails. -/
def strLower (s : String) : String := ⟨s.data.map Char.toLower⟩

/-- Python str.strip: drop whitespace from both ends. -/
def pyStrip (s : String) : String :=
  ⟨((s.data.dropWhile Char.isWhitespace).reverse.dropWhile
      Char.isWhitespace).reverse⟩

/-- Row of the users table. -/
structure User where
  id : Nat
  name : String
  email : String
  passwordHash : String
  role : String
  createdAt : String
  deriving Repr, DecidableEq

/-- Row of the announcements table. -/
structure Announcement where
  id : Nat
  title : String
  body : String
  createdAt : String
  createdBy : Option Nat
  deriving Repr, DecidableEq

/-- Row of the assignments table. -/
structure Assignment where
  id : Nat
  title : String
  description : String
  dueDate : Option String
  createdAt : String
  createdBy : Option Nat
  deriving Repr, DecidableEq

/-- Row of the submissions table.  The score column is REAL with no
validation on the grading path (the handler passes the raw form string
through), so it is modelled as the optional raw value. -/
structure Submission where
  id : Nat
  assignmentId : Nat
  studentId : Nat
  content : String
  submittedAt : String
  score : Option String
  feedback : Option String
  deriving Repr, DecidableEq

/-- Row of the quizzes table. -/
structure Quiz where
  id : Nat
  title : String
  createdAt : String
  createdBy : Option Nat
  deriving Repr, DecidableEq

/-- Row of the quiz_questions table. -/
structure QuizQuestion where
  id : Nat
  quizId : Nat
  prompt : String
  choiceA : String
  choiceB : String
  choiceC : String
  choiceD : String
  correct : String
  deriving Repr, DecidableEq

/-- Row of the quiz_responses table (score REAL DEFAULT 0). -/
structure QuizResponse where
  id : Nat
  quizId : Nat
  studentId : Nat
  submittedAt : String
  score : ℚ
  deriving Repr, DecidableEq

/-- Row of the quiz_answers table (answer nullable). -/
structure QuizAnswer where
  id : Nat
  responseId : Nat
  questionId : Nat
  answer : Option String
  deriving Repr, DecidableEq

/-- The persistent store: one list per table, in insertion (rowid) order.
Discussions carry no claim and are omitted. -/
structure Store where
  users : List User
  announcements : List Announcement
  assignments : List Assignment
  submissions : List Submission
  quizzes : List Quiz
  quizQuestions : List QuizQuestion
  quizResponses : List QuizResponse
  quizAnswers : List QuizAnswer
  deriving Repr, DecidableEq

/-- The empty store. -/
def Store.empty : Store := ⟨[], [], [], [], [], [], [], []⟩

/-- Next AUTOINCREMENT value for a list of row ids. -/
def nextId (ids : List Nat) : Nat := ids.foldr max 0 + 1

def nextUserId (db : Store) : Nat := nextId (db.users.map (·.id))

def nextSubmissionId (db : Store) : Nat := nextId (db.submissions.map (·.id))

def nextQuizId (db : Store) : Nat := nextId (db.quizzes.map (·.id))

def nextQuestionId (db : Store) : Nat := nextId (db.quizQuestions.map (·.id))

def nextResponseId (db : Store) : Nat := nextId (db.quizResponses.map (·.id))

def nextAnswerId (db : Store) : Nat := nextId (db.quizAnswers.map (·.id))

/-- Session identity as stored by login: id and role of the user. -/
structure Sess where
  id : Nat
  role : String
  deriving Repr, DecidableEq

/-- Python truthiness of an optional form field: present and non-empty. -/
def truthy (o : Option String) : Bool :=
  match o with
  | some s => s ≠ ""
  | none => false

-- ----------------- Auth: register (src/app.py lines 165-185) -----------------

/-- Form data of POST /register; absent fields are none, as form.get. -/
structure RegisterForm where
  name : Option String
  email : Option String
  password : Option String
  role : Option String
  deriving Repr, DecidableEq

inductive RegisterOutcome where
  | validationError
  | duplicateEmail
  | success
  deriving Repr, DecidableEq

/-- Stand-in for the external werkzeug password-hash collaborator; the spec
excludes the hash primitive, and no claim depends on its value. -/
def generate_password_hash (pw : String) : String := "pbkdf2:" ++ pw

/-- Embedding of the register handler POST branch: strip and lowercase the
email, validate presence of the fields and the role, then insert; a row
whose email equals the folded email makes the UNIQUE(email) insert fail
with IntegrityError, reported as the duplicate outcome. -/
def register (db : Store) (form : RegisterForm) (now : String) :
    Store × RegisterOutcome :=
  let name := pyStrip (form.name.getD "")
  let email := strLower (pyStrip (form.email.getD ""))
  let pw := form.password.getD ""
  if name = "" ∨ email = "" ∨ pw = "" ∨
      (form.role ≠ some "teacher" ∧ form.role ≠ some "student") then
    (db, .validationError)
  else if db.users.any (fun u => u.email == email) then
    (db, .duplicateEmail)
  else
    ({ db with users := db.users ++
        [{ id := nextUserId db, name := name, email := email,
           passwordHash := generate_password_hash pw,
           role := form.role.getD "", createdAt := now }] }, .success)

-- ------------- Assignments: detail POST (src/app.py lines 276-309) -------------

/-- Form data of POST /assignments/id. -/
structure AssignForm where
  content : Option String
  sid : Option String
  score : Option String
  feedback : Option String
  deriving Repr, DecidableEq

inductive AssignResult where
  | notFound
  | redirectDetail
  | renderDetail
  deriving Repr, DecidableEq

/-- UPDATE submissions ... WHERE id = sid compares the INTEGER id column
with the raw form string; sqlite numeric affinity matches a row only when
the string is a numeral for its id. -/
def gradeTargets (sidStr : String) (rowId : Nat) : Bool :=
  match sidStr.toNat? with
  | some n => rowId == n
  | none => false

/-- Embedding of the assignment_detail handler for a POST request: missing
assignment redirects to the listing; a student session upserts the
submission keyed by (assignment, student); a teacher session with a truthy
sid field updates score and feedback of the addressed row; every other
case falls through to rendering the detail view with no write. -/
def assignment_detail (db : Store) (aid : Nat) (sess : Option Sess)
    (form : AssignForm) (now : String) : Store × AssignResult :=
  if ¬ db.assignments.any (fun a => a.id == aid) then (db, .notFound)
  else
    match sess with
    | some s =>
      if s.role = "student" then
        let content := form.content.getD ""
        match db.submissions.find?
            (fun x => x.assignmentId == aid && x.studentId == s.id) with
        | some ex =>
          ({ db with submissions := db.submissions.map (fun x =>
              if x.id == ex.id then
                { x with content := content, submittedAt := now }
              else x) }, .redirectDetail)
        | none =>
          ({ db with submissions := db.submissions ++
              [{ id := nextSubmissionId db, assignmentId := aid,
                 studentId := s.id, content := content, submittedAt := now,
                 score := none, feedback := none }] }, .redirectDetail)
      else if s.role = "teacher" then
        match form.sid with
        | some sidStr =>
          if sidStr ≠ "" then
            ({ db with submissions := db.submissions.map (fun x =>
                if gradeTargets sidStr x.id then
                  { x with score := form.score, feedback := form.feedback }
                else x) }, .redirectDetail)
          else (db, .renderDetail)
        | none => (db, .renderDetail)
      else (db, .renderDetail)
    | none => (db, .renderDetail)

/-- Count of submission rows for one (assignment, student) pair. -/
def submissionsFor (db : Store) (aid sid : Nat) : Nat :=
  db.submissions.countP (fun x => x.assignmentId == aid && x.studentId == sid)

/-- Content of the first submission row for the pair, when present. -/
def submissionContent (db : Store) (aid sid : Nat) : Option String :=
  (db.submissions.find?
    (fun x => x.assignmentId == aid && x.studentId == sid)).map (·.content)

/-- A sequence of submit requests by one student for one assignment; each
list entry is the submitted content with its timestamp. -/
def submitSeq (db : Store) (aid sid : Nat) (l : List (String × String)) : Store :=
  l.foldl (fun s ct =>
    (assignment_detail s aid (some ⟨sid, "student"⟩)
      ⟨some ct.1, none, none, none⟩ ct.2).1) db

-- ------------- Announcements list (src/app.py lines 230-234) -------------

/-- Stable insertion into a createdAt-descending list: the new element goes
after every strictly newer element and before ties, which preserves the
scan order of equal keys. -/
def insertCreatedDesc (a : Announcement) :
    List Announcement → List Announcement
  | [] => [a]
  | b :: l =>
    if a.createdAt < b.createdAt then b :: insertCreatedDesc a l
    else a :: b :: l

/-- ORDER BY created_at DESC as a stable sort of the table scan. -/
def orderByCreatedDesc : List Announcement → List Announcement
  | [] => []
  | a :: l => insertCreatedDesc a (orderByCreatedDesc l)

/-- Embedding of the announcements listing: rows ordered newest first with
the author name LEFT JOINed in. -/
def announcementsList (db : Store) : List (Announcement × Option String) :=
  (orderByCreatedDesc db.announcements).map (fun a =>
    (a, match a.createdBy with
        | some uid => (db.users.find? (fun u => u.id == uid)).map (·.name)
        | none => none))

-- ------------- Quizzes: transactional write model -------------

/-- Single-statement writes issued by the quiz handlers. -/
inductive DbWrite where
  | insertQuiz (title now : String) (createdBy : Option Nat)
  | insertQuestion (quizId : Nat) (prompt a b c d correct : String)
  | insertResponse (quizId studentId : Nat) (now : String)
  | insertAnswer (responseId questionId : Nat) (answer : Option String)
  | updateResponseScore (responseId : Nat) (score : ℚ)
  deriving Repr, DecidableEq

/-- Effect of one write on a store; inserts draw the AUTOINCREMENT id. -/
def applyWrite (db : Store) : DbWrite → Store
  | .insertQuiz t now cb =>
    { db with quizzes := db.quizzes ++ [⟨nextQuizId db, t, now, cb⟩] }
  | .insertQuestion qid p a b c d corr =>
    { db with quizQuestions := db.quizQuestions ++
        [⟨nextQuestionId db, qid, p, a, b, c, d, corr⟩] }
  | .insertResponse qid sid now =>
    { db with quizResponses := db.quizResponses ++
        [⟨nextResponseId db, qid, sid, now, 0⟩] }
  | .insertAnswer rid qqid ans =>
    { db with quizAnswers := db.quizAnswers ++
        [⟨nextAnswerId db, rid, qqid, ans⟩] }
  | .updateResponseScore rid pct =>
    { db with quizResponses := db.quizResponses.map (fun r =>
        if r.id == rid then { r with score := pct } else r) }

/-- A database action: a write inside the open transaction, or a commit. -/
inductive DbAction where
  | write (w : DbWrite)
  | commit
  deriving Repr, DecidableEq

/-- Run actions over the pair (committed, pending): writes mutate pending
only, commit publishes pending. -/
def runActions : Store → Store → List DbAction → Store × Store
  | committed, pending, [] => (committed, pending)
  | committed, pending, DbAction.write w :: rest =>
    runActions committed (applyWrite pending w) rest
  | _, pending, DbAction.commit :: rest => runActions pending pending rest

/-- Observable store after the connection closes: uncommitted pending
writes are rolled back, so only the committed component survives. -/
def committedState (db : Store) (acts : List DbAction) : Store :=
  (runActions db db acts).1

/-- Observable store when execution aborts after the first k actions. -/
def committedAfterAbort (db : Store) (acts : List DbAction) (k : Nat) : Store :=
  committedState db (acts.take k)

-- ------------- Quizzes: creation (src/app.py lines 354-374) -------------

/-- One of the five question input rows of the quiz form. -/
structure QuizQuestionRow where
  prompt : Option String
  a : Option String
  b : Option String
  c : Option String
  d : Option String
  correct : Option String
  deriving Repr, DecidableEq

/-- Membership of the correct field in the tuple of the four labels. -/
def correctLabel (o : Option String) : Bool :=
  o == some "A" || o == some "B" || o == some "C" || o == some "D"

/-- Guard of the per-row insert: prompt and all four choices truthy and the
correct field one of the labels. -/
def rowValid (r : QuizQuestionRow) : Bool :=
  truthy r.prompt && truthy r.a && truthy r.b && truthy r.c && truthy r.d &&
    correctLabel r.correct

/-- Quiz title with the handler's falsy-default. -/
def quizTitleOf (title : Option String) : String :=
  if truthy title then title.getD "" else "Untitled Quiz"

/-- Question-insert writes of the quiz_new loop: one insert per
fully-filled row, addressed to the fresh quiz id. -/
def quiz_new_qwrites (db : Store) (rows : List QuizQuestionRow) :
    List DbWrite :=
  (rows.filter rowValid).map (fun r =>
    DbWrite.insertQuestion (nextQuizId db) (r.prompt.getD "")
      (r.a.getD "") (r.b.getD "") (r.c.getD "") (r.d.getD "")
      (r.correct.getD ""))

/-- Action trace of the quiz_new POST branch: insert the quiz row, commit,
then insert each fully-filled question row, then commit.  The quiz id the
handler reads back after the first commit equals nextQuizId of the initial
store. -/
def quiz_new_actions (db : Store) (title : Option String)
    (rows : List QuizQuestionRow) (now : String) (teacherId : Nat) :
    List DbAction :=
  [DbAction.write (DbWrite.insertQuiz (quizTitleOf title) now (some teacherId)),
   DbAction.commit] ++
  (quiz_new_qwrites db rows).map DbAction.write ++
  [DbAction.commit]

/-- Store left by a completed quiz_new POST. -/
def quiz_new (db : Store) (title : Option String)
    (rows : List QuizQuestionRow) (now : String) (teacherId : Nat) : Store :=
  committedState db (quiz_new_actions db title rows now teacherId)

-- ------------- Quizzes: taking (src/app.py lines 376-404) -------------

/-- Questions of one quiz, in storage order. -/
def quizQuestionsOf (db : Store) (qid : Nat) : List QuizQuestion :=
  db.quizQuestions.filter (fun q => q.quizId == qid)

/-- Percentage score of a submission: answers matching the correct label,
over the question count guarded by the falsy-default to 1, times 100. -/
def quizScore (db : Store) (qid : Nat) (answers : Nat → Option String) : ℚ :=
  let questions := quizQuestionsOf db qid
  let score : ℚ := questions.countP (fun q => answers q.id == some q.correct)
  let total : Nat := if questions.length = 0 then 1 else questions.length
  score / (total : ℚ) * 100

/-- Writes of one quiz submission: the response row, one answer row per
question, and the score update; the response id the handler reads back
equals nextResponseId of the initial store. -/
def quiz_take_writes (db : Store) (qid sid : Nat)
    (answers : Nat → Option String) (now : String) : List DbWrite :=
  let rid := nextResponseId db
  DbWrite.insertResponse qid sid now ::
    (quizQuestionsOf db qid).map (fun q =>
      DbWrite.insertAnswer rid q.id (answers q.id)) ++
    [DbWrite.updateResponseScore rid (quizScore db qid answers)]

/-- Action trace of a quiz submission: all writes inside one transaction,
one commit at the end. -/
def quiz_take_actions (db : Store) (qid sid : Nat)
    (answers : Nat → Option String) (now : String) : List DbAction :=
  (quiz_take_writes db qid sid answers now).map DbAction.write ++
    [DbAction.commit]

/-- Validity of an answer value against the CHECK constraint of the
quiz_answers table (NULL passes). -/
def answerChoiceOk (o : Option String) : Bool :=
  match o with
  | none => true
  | some s => s == "A" || s == "B" || s == "C" || s == "D"

def answersValid (db : Store) (qid : Nat) (answers : Nat → Option String) : Bool :=
  (quizQuestionsOf db qid).all (fun q => answerChoiceOk (answers q.id))

inductive QuizTakeOutcome where
  | notFound
  | loginRedirect
  | alreadySubmitted
  | serverError
  | submitted (pct : ℚ)
  deriving Repr, DecidableEq

/-- Embedding of the quiz_take handler for a POST request: missing quiz
redirects to the listing; a non-student requester is sent to login; an
existing response for the pair stops the attempt before any write; an
answer value outside the CHECK constraint makes the mid-transaction insert
raise, rolling the transaction back; otherwise the transaction commits. -/
def quiz_take (db : Store) (qid : Nat) (sess : Option Sess)
    (answers : Nat → Option String) (now : String) : Store × QuizTakeOutcome :=
  if ¬ db.quizzes.any (fun q => q.id == qid) then (db, .notFound)
  else
    match sess with
    | none => (db, .loginRedirect)
    | some s =>
      if s.role = "student" then
        if db.quizResponses.any
            (fun r => r.quizId == qid && r.studentId == s.id) then
          (db, .alreadySubmitted)
        else if answersValid db qid answers then
          (committedState db (quiz_take_actions db qid s.id answers now),
           .submitted (quizScore db qid answers))
        else (db, .serverError)
      else (db, .loginRedirect)

-- ------------- Data projections and rounding used by the claims -------------

/-- Question row minus its generated id. -/
def qqData (q : QuizQuestion) :
    Nat × String × String × String × String × String × String :=
  (q.quizId, q.prompt, q.choiceA, q.choiceB, q.choiceC, q.choiceD, q.correct)

/-- Expected question data built from a form row. -/
def rowData (qid : Nat) (r : QuizQuestionRow) :
    Nat × String × String × String × String × String × String :=
  (qid, r.prompt.getD "", r.a.getD "", r.b.getD "", r.c.getD "",
   r.d.getD "", r.correct.getD "")

/-- Answer row minus its generated id. -/
def answerData (a : QuizAnswer) : Nat × Nat × Option String :=
  (a.responseId, a.questionId, a.answer)

/-- Rounding to one decimal place, the precision the spec displays scores at. -/
def roundTenth (q : ℚ) : ℚ := (⌊q * 10 + 1 / 2⌋ : ℚ) / 10

/-- Listing order of two announcements: strictly newer first, and inside a
created_at tie the smaller (earlier-inserted) id first. -/
def annAfter (a b : Announcement) : Prop :=
  b.createdAt < a.createdAt ∨ (a.createdAt = b.createdAt ∧ a.id < b.id)

-- ------------- Concrete fixtures used by the witnesses -------------

/-- Store with one registered teacher whose email is stored lowercased. -/
def regDupDb : Store :=
  { Store.empty with users := [⟨1, "T", "t@x", "h", "teacher", "t0"⟩] }

/-- Store with one three-question quiz with correct labels A, B, C. -/
def quizDb3 : Store :=
  { Store.empty with
    quizzes := [⟨1, "Orientation", "t0", some 1⟩],
    quizQuestions :=
      [⟨1, 1, "P1", "a1", "b1", "c1", "d1", "A"⟩,
       ⟨2, 1, "P2", "a2", "b2", "c2", "d2", "B"⟩,
       ⟨3, 1, "P3", "a3", "b3", "c3", "d3", "C"⟩] }

/-- Answers A, D, C to questions 1, 2, 3: two of three correct. -/
def ansADC : Nat → Option String := fun n =>
  if n = 1 then some "A" else if n = 2 then some "D"
  else if n = 3 then some "C" else none

/-- quizDb3 after student 2 already responded to quiz 1. -/
def quizTakenDb : Store :=
  { quizDb3 with quizResponses := [⟨1, 1, 2, "t0", 0⟩] }

/-- Store with one assignment and no submissions. -/
def asgDb : Store :=
  { Store.empty with assignments := [⟨1, "HW", "desc", none, "t0", some 1⟩] }

/-- asgDb after student 2 submitted and was graded. -/
def gradedSubDb : Store :=
  { asgDb with submissions := [⟨1, 1, 2, "old", "t0", some "88", some "good"⟩] }

/-- Announcements with a created_at tie between ids 2 and 3. -/
def annTieDb : Store :=
  { Store.empty with
    announcements :=
      [⟨1, "A1", "b1", "2024-01-01T00:00:00", some 1⟩,
       ⟨2, "A2", "b2", "2024-01-02T00:00:00", some 1⟩,
       ⟨3, "A3", "b3", "2024-01-02T00:00:00", none⟩] }

/-- Five form rows of which exactly the first and third are fully filled. -/
def rowsTwoValid : List QuizQuestionRow :=
  [⟨some "P1", some "w", some "x", some "y", some "z", some "A"⟩,
   ⟨none, some "w", some "x", some "y", some "z", some "B"⟩,
   ⟨some "P3", some "w", some "x", some "y", some "z", some "D"⟩,
   ⟨some "P4", some "w", some "x", some "y", some "z", some "E"⟩,
   ⟨some "P5", some "w", some "x", some "y", some "", some "C"⟩]

/-- Five form rows none of which is fully filled. -/
def rowsNoneValid : List QuizQuestionRow :=
  [⟨none, none, none, none, none, none⟩,
   ⟨some "P", none, none, none, none, some "A"⟩,
   ⟨some "", some "w", some "x", some "y", some "z", some "A"⟩,
   ⟨none, none, none, none, none, none⟩,
   ⟨none, none, none, none, none, none⟩]

-- ------------- General lemmas -------------

theorem char_toNat_ofNat (n : Nat) (h : n.isValidChar) :
    (Char.ofNat n).toNat = n := by
  simp only [Char.ofNat, dif_pos h, Char.ofNatAux, Char.toNat]
  rfl

theorem char_toLower_idem (c : Char) : c.toLower.toLower = c.toLower := by
  unfold Char.toLower
  by_cases h : c.toNat ≥ 65 ∧ c.toNat ≤ 90
  · simp only [if_pos h]
    rw [char_toNat_ofNat _ (Or.inl (by omega))]
    rw [if_neg (by omega)]
  · simp only [if_neg h]

theorem strLower_idem (s : String) : strLower (strLower s) = strLower s := by
  simp [strLower, List.map_map, Function.comp_def, char_toLower_idem]

theorem lt_nextId (ids : List Nat) (i : Nat) (h : i ∈ ids) : i < nextId ids := by
  induction ids with
  | nil => cases h
  | cons a l ih =>
    unfold nextId at ih ⊢
    simp only [List.foldr_cons]
    rcases List.mem_cons.mp h with h' | h'
    · subst h'; omega
    · have := ih h'; omega

-- ------------- C4: registration email case-folding -------------

/-- C4 (amended): on a store whose emails are all stored lowercased, a
successful registration stores the case-folded form of the
whitespace-trimmed input email and keeps every stored email lowercased,
and a registration whose email differs only in letter case (after
trimming) from an already-registered email fails with the duplicate-email
outcome and leaves the store unchanged. -/
theorem register_email_casefolded (db : Store) (fm : RegisterForm) (now : String)
    (hinv : ∀ u ∈ db.users, strLower u.email = u.email) :
    ((register db fm now).2 = RegisterOutcome.success →
      (register db fm now).1.users.map (·.email)
        = db.users.map (·.email) ++ [strLower (pyStrip (fm.email.getD ""))])
    ∧ (∀ u ∈ (register db fm now).1.users, strLower u.email = u.email)
    ∧ (∀ u ∈ db.users, u.email ≠ "" →
        strLower (pyStrip (fm.email.getD "")) = strLower u.email →
        pyStrip (fm.name.getD "") ≠ "" → fm.password.getD "" ≠ "" →
        (fm.role = some "teacher" ∨ fm.role = some "student") →
        register db fm now = (db, RegisterOutcome.duplicateEmail)) := by
  by_cases h1 : (pyStrip (fm.name.getD "") = "" ∨ strLower (pyStrip (fm.email.getD "")) = "" ∨
      fm.password.getD "" = "" ∨ (fm.role ≠ some "teacher" ∧ fm.role ≠ some "student"))
  · have hr : register db fm now = (db, RegisterOutcome.validationError) := by
      simp only [register, if_pos h1]
    refine ⟨?_, ?_, ?_⟩
    · intro hs; rw [hr] at hs; simp at hs
    · intro u hu; rw [hr] at hu; exact hinv u hu
    · intro u hu hne heq hname hpw hrole
      exfalso
      rcases h1 with h | h | h | h
      · exact hname h
      · rw [heq, hinv u hu] at h; exact hne h
      · exact hpw h
      · rcases hrole with hro | hro
        · exact h.1 hro
        · exact h.2 hro
  · by_cases h2 : (db.users.any fun u => u.email == strLower (pyStrip (fm.email.getD ""))) = true
    · have hr : register db fm now = (db, RegisterOutcome.duplicateEmail) := by
        simp only [register, if_neg h1, if_pos h2]
      refine ⟨?_, ?_, ?_⟩
      · intro hs; rw [hr] at hs; simp at hs
      · intro u hu; rw [hr] at hu; exact hinv u hu
      · intro u hu hne heq hname hpw hrole; exact hr
    · have hr : register db fm now =
          ({ db with users := db.users ++
              [{ id := nextUserId db, name := pyStrip (fm.name.getD ""),
                 email := strLower (pyStrip (fm.email.getD "")),
                 passwordHash := generate_password_hash (fm.password.getD ""),
                 role := fm.role.getD "", createdAt := now }] },
            RegisterOutcome.success) := by
        simp only [register, if_neg h1, if_neg h2]
      refine ⟨?_, ?_, ?_⟩
      · intro _; rw [hr]; simp
      · intro u hu
        rw [hr] at hu
        simp only [List.mem_append, List.mem_singleton] at hu
        rcases hu with hu | hu
        · exact hinv u hu
        · subst hu; exact strLower_idem _
      · intro u hu hne heq hname hpw hrole
        exact absurd (List.any_eq_true.mpr
          ⟨u, hu, by rw [heq, hinv u hu]; exact beq_self_eq_true _⟩) h2

/-- C4 witness: registering with email T@X on a store holding t@x fails as
a duplicate and creates no row. -/
theorem register_email_casefolded_duplicate :
    register regDupDb ⟨some "Ann", some "T@X", some "pw", some "student"⟩ "t1"
      = (regDupDb, RegisterOutcome.duplicateEmail) := by
  exact (register_email_casefolded regDupDb
    ⟨some "Ann", some "T@X", some "pw", some "student"⟩ "t1"
    (by decide)).2.2 ⟨1, "T", "t@x", "h", "teacher", "t0"⟩
    (by decide) (by decide) (by decide) (by decide) (by decide)
    (Or.inr rfl)

/-- C4 counterexample: a successful registration whose input email carries
surrounding whitespace stores the trimmed lowercased form, which is not
the case-folded form of the input, so the stored email is not always the
case-folded input. -/
theorem register_casefold_counterexample :
    (register Store.empty ⟨some "Ann", some " A@B.Com", some "pw", some "student"⟩ "t0").2
      = RegisterOutcome.success
    ∧ (register Store.empty ⟨some "Ann", some " A@B.Com", some "pw", some "student"⟩ "t0").1.users.map (·.email)
      = ["a@b.com"]
    ∧ strLower " A@B.Com" = " a@b.com"
    ∧ ("a@b.com" : String) ≠ " a@b.com" := by
  refine ⟨rfl, rfl, ?_, by decide⟩
  decide

-- ------------- Assignment submission lemmas -------------

theorem submit_insert_eq (db : Store) (aid sid : Nat) (form : AssignForm)
    (now : String)
    (ha : db.assignments.any (fun a => a.id == aid) = true)
    (h0 : db.submissions.find?
      (fun x => x.assignmentId == aid && x.studentId == sid) = none) :
    assignment_detail db aid (some ⟨sid, "student"⟩) form now
      = ({ db with submissions := db.submissions ++
            [⟨nextSubmissionId db, aid, sid, form.content.getD "", now,
              none, none⟩] },
         AssignResult.redirectDetail) := by
  simp [assignment_detail, ha, h0]

theorem submit_update_eq (db : Store) (aid sid : Nat) (form : AssignForm)
    (now : String) (ex : Submission)
    (ha : db.assignments.any (fun a => a.id == aid) = true)
    (hex : db.submissions.find?
      (fun x => x.assignmentId == aid && x.studentId == sid) = some ex) :
    assignment_detail db aid (some ⟨sid, "student"⟩) form now
      = ({ db with submissions := db.submissions.map (fun x =>
            if x.id == ex.id then
              { x with content := form.content.getD "", submittedAt := now }
            else x) },
         AssignResult.redirectDetail) := by
  simp [assignment_detail, ha, hex]

theorem submit_step (db : Store) (aid sid : Nat) (c now : String)
    (ha : db.assignments.any (fun a => a.id == aid) = true)
    (hle : submissionsFor db aid sid ≤ 1) :
    submissionsFor (assignment_detail db aid (some ⟨sid, "student"⟩)
        ⟨some c, none, none, none⟩ now).1 aid sid = 1
    ∧ submissionContent (assignment_detail db aid (some ⟨sid, "student"⟩)
        ⟨some c, none, none, none⟩ now).1 aid sid = some c
    ∧ (assignment_detail db aid (some ⟨sid, "student"⟩)
        ⟨some c, none, none, none⟩ now).1.assignments = db.assignments := by
  rcases hfind : db.submissions.find?
      (fun x => x.assignmentId == aid && x.studentId == sid) with _ | ex
  · have hst : (assignment_detail db aid (some ⟨sid, "student"⟩)
        ⟨some c, none, none, none⟩ now).1
        = { db with submissions := db.submissions ++
            [⟨nextSubmissionId db, aid, sid, c, now, none, none⟩] } := by
      rw [submit_insert_eq db aid sid _ now ha hfind]
      rfl
    have h0 : submissionsFor db aid sid = 0 := by
      unfold submissionsFor
      exact List.countP_eq_zero.mpr (List.find?_eq_none.mp hfind)
    rw [hst]
    refine ⟨?_, ?_, rfl⟩
    · unfold submissionsFor at h0 ⊢
      simp only [List.countP_append, h0]
      simp [List.countP_cons]
    · unfold submissionContent
      simp only [List.find?_append, hfind, Option.none_or]
      simp
  · have hst : (assignment_detail db aid (some ⟨sid, "student"⟩)
        ⟨some c, none, none, none⟩ now).1
        = { db with submissions := (db.submissions.map
            (fun x => if x.id == ex.id then
              { x with content := c, submittedAt := now } else x)) } := by
      rw [submit_update_eq db aid sid _ now ex ha hfind]
      rfl
    have hmem := List.mem_of_find?_eq_some hfind
    have hpair := List.find?_some hfind
    have hcong : ∀ x : Submission,
        ((fun x => x.assignmentId == aid && x.studentId == sid)
          ((fun x => if x.id == ex.id then
              { x with content := c, submittedAt := now } else x) x))
        = (fun x => x.assignmentId == aid && x.studentId == sid) x := by
      intro x; by_cases h : x.id == ex.id <;> simp [h]
    have hfun : ((fun x : Submission =>
          x.assignmentId == aid && x.studentId == sid) ∘
        (fun x => if x.id == ex.id then
          { x with content := c, submittedAt := now } else x))
        = (fun x : Submission => x.assignmentId == aid && x.studentId == sid) :=
      funext hcong
    have hone : submissionsFor db aid sid = 1 := by
      have : 0 < submissionsFor db aid sid := by
        unfold submissionsFor
        rw [List.countP_pos_iff]
        exact ⟨ex, hmem, hpair⟩
      omega
    rw [hst]
    refine ⟨?_, ?_, rfl⟩
    · unfold submissionsFor at hone ⊢
      simp only [List.countP_map, hfun]
      exact hone
    · unfold submissionContent
      rw [List.find?_map, hfun, hfind]
      simp

theorem submitSeq_inv (aid sid : Nat) (l : List (String × String)) :
    ∀ db : Store,
      db.assignments.any (fun a => a.id == aid) = true →
      submissionsFor db aid sid ≤ 1 →
      (submitSeq db aid sid l).assignments = db.assignments
      ∧ submissionsFor (submitSeq db aid sid l) aid sid ≤ 1
      ∧ (l ≠ [] →
          submissionsFor (submitSeq db aid sid l) aid sid = 1
          ∧ submissionContent (submitSeq db aid sid l) aid sid
              = (l.getLast?).map Prod.fst) := by
  induction l with
  | nil =>
    intro db ha hle
    exact ⟨rfl, hle, fun h => absurd rfl h⟩
  | cons ct l ih =>
    intro db ha hle
    have hstep := submit_step db aid sid ct.1 ct.2 ha hle
    set db1 := (assignment_detail db aid (some ⟨sid, "student"⟩)
        ⟨some ct.1, none, none, none⟩ ct.2).1 with hdb1
    have ha1 : db1.assignments.any (fun a => a.id == aid) = true := by
      rw [hstep.2.2]; exact ha
    have hle1 : submissionsFor db1 aid sid ≤ 1 := le_of_eq hstep.1
    have hcons : submitSeq db aid sid (ct :: l) = submitSeq db1 aid sid l := rfl
    rcases ih db1 ha1 hle1 with ⟨ia, ile, ine⟩
    refine ⟨by rw [hcons, ia, hstep.2.2], by rw [hcons]; exact ile, ?_⟩
    intro _
    rcases l with _ | ⟨ct2, l2⟩
    · refine ⟨by rw [hcons]; exact hstep.1, ?_⟩
      rw [hcons]
      show submissionContent db1 aid sid = _
      rw [hstep.2.1]
      simp
    · have hne2 : (ct2 :: l2) ≠ ([] : List (String × String)) := by simp
      rcases ine hne2 with ⟨i1, i2⟩
      refine ⟨by rw [hcons]; exact i1, ?_⟩
      rw [hcons, i2, List.getLast?_cons_cons]

-- ------------- C2: submission upsert uniqueness -------------

/-- C2: starting from a store with no submission for the pair, any
non-empty sequence of submits by the student for the assignment leaves
exactly one submission row for the (assignment, student) pair, and its
content is the content of the most recent submit. -/
theorem submission_upsert_unique (db : Store) (aid sid : Nat)
    (l : List (String × String))
    (ha : db.assignments.any (fun a => a.id == aid) = true)
    (h0 : submissionsFor db aid sid = 0) (hne : l ≠ []) :
    submissionsFor (submitSeq db aid sid l) aid sid = 1
    ∧ submissionContent (submitSeq db aid sid l) aid sid
        = (l.getLast?).map Prod.fst :=
  (submitSeq_inv aid sid l db ha (by omega)).2.2 hne

/-- C2 witness: two submits on a fresh pair leave one row holding the
second content. -/
theorem submission_upsert_unique_example :
    submissionsFor (submitSeq asgDb 1 2 [("first", "t1"), ("second", "t2")]) 1 2 = 1
    ∧ submissionContent
        (submitSeq asgDb 1 2 [("first", "t1"), ("second", "t2")]) 1 2
      = (([("first", "t1"), ("second", "t2")] :
          List (String × String)).getLast?).map Prod.fst :=
  submission_upsert_unique asgDb 1 2 [("first", "t1"), ("second", "t2")]
    (by decide) (by decide) (by decide)

-- ------------- C7: resubmission preserves grading fields -------------

/-- C7: when a submission row already exists for the pair, a resubmit
rewrites only content and submitted_at of that row; id, pair keys, score
and feedback of every stored row are preserved. -/
theorem resubmit_preserves_grading (db : Store) (aid sid : Nat)
    (form : AssignForm) (now : String) (ex : Submission)
    (ha : db.assignments.any (fun a => a.id == aid) = true)
    (hex : db.submissions.find?
      (fun x => x.assignmentId == aid && x.studentId == sid) = some ex) :
    (assignment_detail db aid (some ⟨sid, "student"⟩) form now).1.submissions
      = db.submissions.map (fun x => if x.id == ex.id then
          { x with content := form.content.getD "", submittedAt := now } else x)
    ∧ ∀ x ∈ db.submissions,
        ∃ x' ∈ (assignment_detail db aid
            (some ⟨sid, "student"⟩) form now).1.submissions,
          x'.id = x.id ∧ x'.assignmentId = x.assignmentId
          ∧ x'.studentId = x.studentId
          ∧ x'.score = x.score ∧ x'.feedback = x.feedback := by
  have hst := submit_update_eq db aid sid form now ex ha hex
  constructor
  · rw [hst]
  · intro x hx
    rw [hst]
    refine ⟨(fun x => if x.id == ex.id then
        { x with content := form.content.getD "", submittedAt := now } else x) x,
      List.mem_map_of_mem _ hx, ?_⟩
    by_cases h : x.id == ex.id <;> simp [h]

/-- C7 witness: resubmitting over a graded row keeps score 88 and the
feedback while replacing content and timestamp. -/
theorem resubmit_preserves_grading_example :
    (assignment_detail gradedSubDb 1 (some ⟨2, "student"⟩)
        ⟨some "new", none, none, none⟩ "t1").1.submissions
      = [⟨1, 1, 2, "new", "t1", some "88", some "good"⟩] := by
  have h := resubmit_preserves_grading gradedSubDb 1 2
    ⟨some "new", none, none, none⟩ "t1"
    ⟨1, 1, 2, "old", "t0", some "88", some "good"⟩ (by decide) (by decide)
  rw [h.1]
  rfl

-- ------------- C10: POST without a submit or grade case -------------

/-- C10: a POST on an existing assignment with no session, with a teacher
session carrying a falsy sid field, or with a session of unknown role,
performs no write and renders the detail view; the handler issues no login
redirect and no authorization failure in these cases. -/
theorem assignment_post_fallthrough (db : Store) (aid : Nat)
    (sess : Option Sess) (form : AssignForm) (now : String)
    (ha : db.assignments.any (fun a => a.id == aid) = true)
    (hcase : sess = none
      ∨ (∃ i, sess = some ⟨i, "teacher"⟩
          ∧ (form.sid = none ∨ form.sid = some ""))
      ∨ (∃ s, sess = some s ∧ s.role ≠ "student" ∧ s.role ≠ "teacher")) :
    assignment_detail db aid sess form now = (db, AssignResult.renderDetail) := by
  rcases hcase with h | ⟨i, hs, hsid⟩ | ⟨s, hs, h1, h2⟩
  · subst h; simp [assignment_detail, ha]
  · subst hs
    rcases hsid with h | h <;> simp [assignment_detail, ha, h]
  · subst hs; simp [assignment_detail, ha, h1, h2]

/-- C10 witness: an anonymous POST with content on an existing assignment
changes nothing and renders the detail view. -/
theorem assignment_post_fallthrough_example :
    assignment_detail asgDb 1 none ⟨some "zzz", none, none, none⟩ "t1"
      = (asgDb, AssignResult.renderDetail) :=
  assignment_post_fallthrough asgDb 1 none ⟨some "zzz", none, none, none⟩ "t1"
    (by decide) (Or.inl rfl)

-- ------------- C8: announcements ordering -------------

theorem insertCreatedDesc_perm (a : Announcement) (l : List Announcement) :
    (insertCreatedDesc a l).Perm (a :: l) := by
  induction l with
  | nil => exact List.Perm.refl _
  | cons b l ih =>
    unfold insertCreatedDesc
    split
    · exact (List.Perm.cons b ih).trans (List.Perm.swap a b l)
    · exact List.Perm.refl _

theorem orderByCreatedDesc_perm (l : List Announcement) :
    (orderByCreatedDesc l).Perm l := by
  induction l with
  | nil => exact List.Perm.refl _
  | cons a l ih =>
    exact (insertCreatedDesc_perm a (orderByCreatedDesc l)).trans
      (List.Perm.cons a ih)

theorem pairwise_insertCreatedDesc (a : Announcement) (l : List Announcement)
    (hl : l.Pairwise annAfter)
    (ha : ∀ b ∈ l, a.createdAt = b.createdAt → a.id < b.id) :
    (insertCreatedDesc a l).Pairwise annAfter := by
  induction l with
  | nil => simp [insertCreatedDesc]
  | cons b l ih =>
    rcases List.pairwise_cons.mp hl with ⟨hb, hl'⟩
    unfold insertCreatedDesc
    split
    · rename_i hab
      refine List.pairwise_cons.mpr ⟨?_, ih hl'
        (fun x hx hx' => ha x (List.mem_cons_of_mem b hx) hx')⟩
      intro x hx
      rcases List.mem_cons.mp ((insertCreatedDesc_perm a l).mem_iff.mp hx)
        with h | h
      · subst h; exact Or.inl hab
      · exact hb x h
    · rename_i hab
      refine List.pairwise_cons.mpr ⟨?_, hl⟩
      intro x hx
      have hba : b.createdAt ≤ a.createdAt := not_lt.mp hab
      rcases List.mem_cons.mp hx with h | h
      · subst h
        rcases lt_or_eq_of_le hba with h' | h'
        · exact Or.inl h'
        · exact Or.inr ⟨h'.symm, ha x (List.mem_cons_self x l) h'.symm⟩
      · rcases lt_trichotomy x.createdAt a.createdAt with h' | h' | h'
        · exact Or.inl h'
        · exact Or.inr ⟨h'.symm, ha x (List.mem_cons_of_mem b h) h'.symm⟩
        · exfalso
          rcases hb x h with hbx | hbx
          · exact lt_asymm h' (lt_of_lt_of_le hbx hba)
          · rw [← hbx.1] at h'
            exact hab h'

theorem pairwise_orderByCreatedDesc (l : List Announcement)
    (hids : l.Pairwise (fun a b => a.id < b.id)) :
    (orderByCreatedDesc l).Pairwise annAfter := by
  induction l with
  | nil => exact List.Pairwise.nil
  | cons a l ih =>
    rcases List.pairwise_cons.mp hids with ⟨hhead, htail⟩
    apply pairwise_insertCreatedDesc a _ (ih htail)
    intro b hb _
    exact hhead b ((orderByCreatedDesc_perm l).mem_iff.mp hb)

/-- C8: the announcements listing is a permutation of the stored rows in
created_at-descending order, and rows with equal created_at appear in
ascending id (insertion) order, provided the table scan is in ascending
id order as AUTOINCREMENT guarantees. -/
theorem announcements_newest_first (db : Store)
    (hids : db.announcements.Pairwise (fun a b => a.id < b.id)) :
    ((announcementsList db).map Prod.fst).Perm db.announcements
    ∧ ((announcementsList db).map Prod.fst).Pairwise annAfter := by
  have hmap : (announcementsList db).map Prod.fst
      = orderByCreatedDesc db.announcements := by
    simp [announcementsList, List.map_map, Function.comp_def]
  rw [hmap]
  exact ⟨orderByCreatedDesc_perm _, pairwise_orderByCreatedDesc _ hids⟩

/-- C8 witness: with ids 2 and 3 sharing a created_at newer than id 1, the
listing is a permutation of the table in the tie-broken descending order. -/
theorem announcements_newest_first_example :
    ((announcementsList annTieDb).map Prod.fst).Perm annTieDb.announcements
    ∧ ((announcementsList annTieDb).map Prod.fst).Pairwise annAfter :=
  announcements_newest_first annTieDb (by decide)

-- ------------- Transaction model lemmas -------------

theorem runActions_append (l1 l2 : List DbAction) :
    ∀ c p : Store, runActions c p (l1 ++ l2)
      = runActions (runActions c p l1).1 (runActions c p l1).2 l2 := by
  induction l1 with
  | nil => intro c p; rfl
  | cons a l ih =>
    intro c p
    cases a with
    | write w => simpa [runActions] using ih c (applyWrite p w)
    | commit => simpa [runActions] using ih p p

theorem runActions_writes (ws : List DbWrite) :
    ∀ c p : Store,
      runActions c p (ws.map DbAction.write) = (c, ws.foldl applyWrite p) := by
  induction ws with
  | nil => intro c p; rfl
  | cons w ws ih => intro c p; simpa [runActions] using ih c (applyWrite p w)

theorem runActions_no_commit :
    ∀ acts : List DbAction, (∀ a ∈ acts, a ≠ DbAction.commit) →
      ∀ c p : Store, (runActions c p acts).1 = c
  | [], _, _, _ => rfl
  | DbAction.write w :: rest, h, c, p =>
    runActions_no_commit rest
      (fun a ha => h a (List.mem_cons_of_mem _ ha)) c (applyWrite p w)
  | DbAction.commit :: _, h, _, _ =>
    absurd rfl (h DbAction.commit (List.mem_cons_self _ _))

theorem committedState_writes_commit (db : Store) (ws : List DbWrite) :
    committedState db (ws.map DbAction.write ++ [DbAction.commit])
      = ws.foldl applyWrite db := by
  unfold committedState
  rw [runActions_append, runActions_writes]
  rfl

theorem committedAbort_writes_commit (db : Store) (ws : List DbWrite) (k : Nat)
    (hk : k < (ws.map DbAction.write ++ [DbAction.commit]).length) :
    committedAfterAbort db (ws.map DbAction.write ++ [DbAction.commit]) k = db := by
  have hk' : k ≤ ws.length := by
    simp only [List.length_append, List.length_map, List.length_cons,
      List.length_nil] at hk
    omega
  unfold committedAfterAbort committedState
  rw [List.take_append_of_le_length (by simpa using hk'), ← List.map_take]
  apply runActions_no_commit
  intro a ha
  rcases List.mem_map.mp ha with ⟨w, _, rfl⟩
  simp

theorem foldl_insertAnswer (rid : Nat) (answers : Nat → Option String) :
    ∀ (qs : List QuizQuestion) (p : Store),
      ((qs.map (fun q => DbWrite.insertAnswer rid q.id (answers q.id))).foldl
          applyWrite p).quizAnswers.map answerData
        = p.quizAnswers.map answerData
          ++ qs.map (fun q => (rid, q.id, answers q.id))
      ∧ ((qs.map (fun q => DbWrite.insertAnswer rid q.id (answers q.id))).foldl
          applyWrite p).quizResponses = p.quizResponses := by
  intro qs
  induction qs with
  | nil => intro p; exact ⟨by simp, rfl⟩
  | cons q qs ih =>
    intro p
    rcases ih (applyWrite p (DbWrite.insertAnswer rid q.id (answers q.id)))
      with ⟨h1, h2⟩
    constructor
    · rw [List.map_cons, List.foldl_cons, h1]
      simp [applyWrite, answerData]
    · rw [List.map_cons, List.foldl_cons, h2]
      rfl

theorem foldl_insertQuestion (qid : Nat) (rs : List QuizQuestionRow) :
    ∀ p : Store,
      ((rs.map (fun r => DbWrite.insertQuestion qid (r.prompt.getD "")
          (r.a.getD "") (r.b.getD "") (r.c.getD "") (r.d.getD "")
          (r.correct.getD ""))).foldl applyWrite p).quizQuestions.map qqData
        = p.quizQuestions.map qqData ++ rs.map (rowData qid)
      ∧ ((rs.map (fun r => DbWrite.insertQuestion qid (r.prompt.getD "")
          (r.a.getD "") (r.b.getD "") (r.c.getD "") (r.d.getD "")
          (r.correct.getD ""))).foldl applyWrite p).quizQuestions.length
        = p.quizQuestions.length + rs.length
      ∧ ((rs.map (fun r => DbWrite.insertQuestion qid (r.prompt.getD "")
          (r.a.getD "") (r.b.getD "") (r.c.getD "") (r.d.getD "")
          (r.correct.getD ""))).foldl applyWrite p).quizzes = p.quizzes := by
  induction rs with
  | nil => intro p; exact ⟨by simp, rfl, rfl⟩
  | cons r rs ih =>
    intro p
    rcases ih (applyWrite p (DbWrite.insertQuestion qid (r.prompt.getD "")
        (r.a.getD "") (r.b.getD "") (r.c.getD "") (r.d.getD "")
        (r.correct.getD ""))) with ⟨h1, h2, h3⟩
    refine ⟨?_, ?_, ?_⟩
    · rw [List.map_cons, List.foldl_cons, h1]
      simp [applyWrite, qqData, rowData]
    · rw [List.map_cons, List.foldl_cons, h2]
      simp [applyWrite]
      omega
    · rw [List.map_cons, List.foldl_cons, h3]
      rfl

theorem quiz_new_run (db : Store) (title : Option String)
    (rows : List QuizQuestionRow) (now : String) (tid : Nat) :
    quiz_new db title rows now tid
      = (quiz_new_qwrites db rows).foldl applyWrite
          (applyWrite db
            (DbWrite.insertQuiz (quizTitleOf title) now (some tid))) := by
  unfold quiz_new committedState quiz_new_actions
  rw [runActions_append, runActions_append, runActions_writes]
  simp [runActions]

theorem resp_id_lt (db : Store) (r : QuizResponse) (h : r ∈ db.quizResponses) :
    r.id < nextResponseId db :=
  lt_nextId _ _ (List.mem_map_of_mem _ h)

theorem quiz_take_committed (db : Store) (qid sid : Nat)
    (answers : Nat → Option String) (now : String) :
    (committedState db (quiz_take_actions db qid sid answers now)).quizResponses
      = db.quizResponses
        ++ [⟨nextResponseId db, qid, sid, now, quizScore db qid answers⟩]
    ∧ (committedState db
        (quiz_take_actions db qid sid answers now)).quizAnswers.map answerData
      = db.quizAnswers.map answerData
        ++ (quizQuestionsOf db qid).map
            (fun q => (nextResponseId db, q.id, answers q.id)) := by
  rw [quiz_take_actions, committedState_writes_commit]
  simp only [quiz_take_writes]
  simp only [List.foldl_cons, List.foldl_append, List.foldl_nil]
  set p1 := applyWrite db (DbWrite.insertResponse qid sid now) with hp1
  set p2 := List.foldl applyWrite p1
    (List.map (fun q => DbWrite.insertAnswer (nextResponseId db) q.id (answers q.id))
      (quizQuestionsOf db qid)) with hp2
  have ha := (foldl_insertAnswer (nextResponseId db) answers
    (quizQuestionsOf db qid) p1).1
  have hr := (foldl_insertAnswer (nextResponseId db) answers
    (quizQuestionsOf db qid) p1).2
  rw [← hp2] at ha hr
  constructor
  · have e1 : (applyWrite p2 (DbWrite.updateResponseScore (nextResponseId db)
        (quizScore db qid answers))).quizResponses
        = p2.quizResponses.map (fun r =>
            if r.id == nextResponseId db then
              { r with score := quizScore db qid answers } else r) := rfl
    rw [e1, hr, hp1]
    have e2 : (applyWrite db (DbWrite.insertResponse qid sid now)).quizResponses
        = db.quizResponses ++ [⟨nextResponseId db, qid, sid, now, 0⟩] := rfl
    rw [e2, List.map_append]
    congr 1
    · refine (List.map_congr_left ?_).trans (List.map_id _)
      intro r hrm
      have hlt := resp_id_lt db r hrm
      rw [if_neg (by simp only [beq_iff_eq]; omega)]
      rfl
    · simp
  · have e1 : (applyWrite p2 (DbWrite.updateResponseScore (nextResponseId db)
        (quizScore db qid answers))).quizAnswers = p2.quizAnswers := rfl
    rw [e1, ha, hp1]
    rfl

-- ------------- C3: no quiz retakes -------------

/-- C3: with the quiz present and a QuizResponse already stored for the
(quiz, student) pair, a second submit attempt by that student returns the
already-submitted outcome and leaves the store unchanged, so no
QuizResponse row and no QuizAnswer row is created. -/
theorem quiz_resubmit_rejected (db : Store) (qid : Nat) (s : Sess)
    (answers : Nat → Option String) (now : String)
    (hq : db.quizzes.any (fun q => q.id == qid) = true)
    (hrole : s.role = "student")
    (hex : db.quizResponses.any
      (fun r => r.quizId == qid && r.studentId == s.id) = true) :
    quiz_take db qid (some s) answers now
      = (db, QuizTakeOutcome.alreadySubmitted) := by
  simp [quiz_take, hq, hrole, hex]

/-- C3 witness: student 2 re-submitting quiz 1 is rejected and the store
is untouched. -/
theorem quiz_resubmit_rejected_example :
    quiz_take quizTakenDb 1 (some ⟨2, "student"⟩) ansADC "t1"
      = (quizTakenDb, QuizTakeOutcome.alreadySubmitted) :=
  quiz_resubmit_rejected quizTakenDb 1 ⟨2, "student"⟩ ansADC "t1"
    (by decide) rfl (by decide)

-- ------------- C5: quiz submission atomicity -------------

/-- C5: the quiz-submission transaction is all-or-nothing: aborting after
any proper prefix of its actions (the single commit is last) leaves the
observable store exactly the initial one, while the completed run
persists the response row with its computed score and one answer row per
question of the quiz. -/
theorem quiz_submit_atomic (db : Store) (qid sid : Nat)
    (answers : Nat → Option String) (now : String) (k : Nat) :
    (k < (quiz_take_actions db qid sid answers now).length →
      committedAfterAbort db (quiz_take_actions db qid sid answers now) k = db)
    ∧ (committedState db
        (quiz_take_actions db qid sid answers now)).quizResponses
      = db.quizResponses
        ++ [⟨nextResponseId db, qid, sid, now, quizScore db qid answers⟩]
    ∧ (committedState db
        (quiz_take_actions db qid sid answers now)).quizAnswers.map answerData
      = db.quizAnswers.map answerData
        ++ (quizQuestionsOf db qid).map
            (fun q => (nextResponseId db, q.id, answers q.id)) := by
  refine ⟨?_, (quiz_take_committed db qid sid answers now).1,
    (quiz_take_committed db qid sid answers now).2⟩
  intro hk
  rw [quiz_take_actions] at hk ⊢
  exact committedAbort_writes_commit db _ k hk

/-- C5 witness: aborting the three-question submission after two actions
leaves the store unchanged; the full run appends the response and the
answer rows. -/
theorem quiz_submit_atomic_example :
    committedAfterAbort quizDb3 (quiz_take_actions quizDb3 1 2 ansADC "t1") 2
      = quizDb3
    ∧ (committedState quizDb3
        (quiz_take_actions quizDb3 1 2 ansADC "t1")).quizResponses
      = quizDb3.quizResponses
        ++ [⟨nextResponseId quizDb3, 1, 2, "t1", quizScore quizDb3 1 ansADC⟩]
    ∧ (committedState quizDb3
        (quiz_take_actions quizDb3 1 2 ansADC "t1")).quizAnswers.map answerData
      = quizDb3.quizAnswers.map answerData
        ++ (quizQuestionsOf quizDb3 1).map
            (fun q => (nextResponseId quizDb3, q.id, ansADC q.id)) :=
  ⟨(quiz_submit_atomic quizDb3 1 2 ansADC "t1" 2).1 (by decide),
   (quiz_submit_atomic quizDb3 1 2 ansADC "t1" 2).2.1,
   (quiz_submit_atomic quizDb3 1 2 ansADC "t1" 2).2.2⟩

-- ------------- C1: quiz score formula -------------

/-- C1: a successful quiz submission stores a QuizResponse whose score is
the count of submitted answers equal to their question's correct label,
divided by max(number of questions, 1), times 100.  The 66.7 of the spec
example is the one-decimal rendering of the stored exact value, shown at
the witness. -/
theorem quiz_take_score (db : Store) (qid : Nat) (s : Sess)
    (answers : Nat → Option String) (now : String)
    (hq : db.quizzes.any (fun q => q.id == qid) = true)
    (hrole : s.role = "student")
    (hnew : db.quizResponses.any
      (fun r => r.quizId == qid && r.studentId == s.id) = false)
    (hvalid : answersValid db qid answers = true) :
    (quiz_take db qid (some s) answers now).2
      = QuizTakeOutcome.submitted (quizScore db qid answers)
    ∧ (quiz_take db qid (some s) answers now).1.quizResponses
      = db.quizResponses
        ++ [⟨nextResponseId db, qid, s.id, now, quizScore db qid answers⟩]
    ∧ quizScore db qid answers
      = ((quizQuestionsOf db qid).countP
          (fun q => answers q.id == some q.correct) : ℚ)
        / (((max (quizQuestionsOf db qid).length 1 : Nat)) : ℚ) * 100 := by
  have hred : quiz_take db qid (some s) answers now
      = (committedState db (quiz_take_actions db qid s.id answers now),
         QuizTakeOutcome.submitted (quizScore db qid answers)) := by
    simp [quiz_take, hq, hrole, hnew, hvalid]
  refine ⟨by rw [hred], ?_, ?_⟩
  · rw [hred]
    exact (quiz_take_committed db qid s.id answers now).1
  · have htot : (if (quizQuestionsOf db qid).length = 0 then 1
        else (quizQuestionsOf db qid).length)
        = max (quizQuestionsOf db qid).length 1 := by
      rcases Nat.eq_zero_or_pos (quizQuestionsOf db qid).length with h | h
      · rw [h]; simp
      · rw [if_neg (by omega)]
        exact (Nat.max_eq_left (by omega)).symm
    simp only [quizScore]
    rw [htot]

/-- C1 witness: three questions with correct labels A, B, C and answers
A, D, C score 2/3 of 100, stored exactly as 200/3, whose one-decimal
rendering is 66.7. -/
theorem quiz_take_score_example :
    (quiz_take quizDb3 1 (some ⟨2, "student"⟩) ansADC "t1").2
      = QuizTakeOutcome.submitted (quizScore quizDb3 1 ansADC)
    ∧ quizScore quizDb3 1 ansADC = 200 / 3
    ∧ roundTenth ((200 : ℚ) / 3) = 667 / 10 := by
  have h := quiz_take_score quizDb3 1 ⟨2, "student"⟩ ansADC "t1"
    (by decide) rfl (by decide) (by decide)
  refine ⟨h.1, ?_, ?_⟩
  · have hc : (quizQuestionsOf quizDb3 1).countP
        (fun q => ansADC q.id == some q.correct) = 2 := by decide
    have hl : (quizQuestionsOf quizDb3 1).length = 3 := by decide
    rw [h.2.2, hc, hl]
    norm_num
  · have hf : (⌊(200 : ℚ) / 3 * 10 + 1 / 2⌋ : ℤ) = 667 := by
      apply Int.floor_eq_iff.mpr
      constructor <;> norm_num
    rw [roundTenth, hf]
    norm_num

-- ------------- C6: quiz creation persists exactly the filled rows -------------

/-- C6: a quiz-creation request with up to five question rows persists
exactly the rows whose prompt, four choices are all truthy and whose
correct label is one of A, B, C, D; the other rows are skipped without
error, so the question count grows by exactly the number of fully-filled
rows. -/
theorem quiz_new_persists_filled (db : Store) (title : Option String)
    (rows : List QuizQuestionRow) (now : String) (tid : Nat)
    (_hlen : rows.length ≤ 5) :
    (quiz_new db title rows now tid).quizQuestions.map qqData
      = db.quizQuestions.map qqData
        ++ (rows.filter rowValid).map (rowData (nextQuizId db))
    ∧ (quiz_new db title rows now tid).quizQuestions.length
      = db.quizQuestions.length + rows.countP rowValid := by
  rw [quiz_new_run]
  unfold quiz_new_qwrites
  have h := foldl_insertQuestion (nextQuizId db) (rows.filter rowValid)
    (applyWrite db (DbWrite.insertQuiz (quizTitleOf title) now (some tid)))
  refine ⟨h.1, ?_⟩
  rw [List.countP_eq_length_filter]
  exact h.2.1

/-- C6 witness: of five submitted rows exactly the two fully-filled ones
become QuizQuestion rows. -/
theorem quiz_new_persists_filled_example :
    (quiz_new Store.empty (some "T") rowsTwoValid "t0" 9).quizQuestions.length
      = Store.empty.quizQuestions.length + rowsTwoValid.countP rowValid
    ∧ rowsTwoValid.countP rowValid = 2 :=
  ⟨(quiz_new_persists_filled Store.empty (some "T") rowsTwoValid "t0" 9
      (by decide)).2, by decide⟩

-- ------------- C9: the quiz row itself always persists -------------

theorem runActions_quizzes_stable :
    ∀ acts : List DbAction,
      (∀ a ∈ acts, ∀ w, a = DbAction.write w →
        ∀ s : Store, (applyWrite s w).quizzes = s.quizzes) →
      ∀ c p : Store, c.quizzes = p.quizzes →
        (runActions c p acts).1.quizzes = c.quizzes
  | [], _, _, _, _ => rfl
  | DbAction.write w :: rest, h, c, p, hcp => by
    have hw := h (DbAction.write w) (List.mem_cons_self _ _) w rfl p
    exact runActions_quizzes_stable rest
      (fun a ha => h a (List.mem_cons_of_mem _ ha)) c (applyWrite p w)
      (by rw [hcp, hw])
  | DbAction.commit :: rest, h, c, p, hcp => by
    have hres := runActions_quizzes_stable rest
      (fun a ha => h a (List.mem_cons_of_mem _ ha)) p p rfl
    exact hres.trans hcp.symm

/-- C9: quiz creation inserts and commits the quiz row before the question
rows are examined: whatever the question rows hold, the completed run has
the quiz row, and an abort at any point from the first commit on still
shows it; a request whose question rows are all partial yields the quiz
row with zero question rows. -/
theorem quiz_new_row_committed (db : Store) (title : Option String)
    (rows : List QuizQuestionRow) (now : String) (tid : Nat) :
    (quiz_new db title rows now tid).quizzes
      = db.quizzes ++ [⟨nextQuizId db, quizTitleOf title, now, some tid⟩]
    ∧ (rows.all (fun r => !(rowValid r)) = true →
        (quiz_new db title rows now tid).quizQuestions = db.quizQuestions)
    ∧ ∀ k, 2 ≤ k →
        (committedAfterAbort db
          (quiz_new_actions db title rows now tid) k).quizzes
          = db.quizzes ++ [⟨nextQuizId db, quizTitleOf title, now, some tid⟩] := by
  refine ⟨?_, ?_, ?_⟩
  · rw [quiz_new_run]
    unfold quiz_new_qwrites
    exact (foldl_insertQuestion (nextQuizId db) (rows.filter rowValid)
      (applyWrite db
        (DbWrite.insertQuiz (quizTitleOf title) now (some tid)))).2.2
  · intro hnov
    have hfil : rows.filter rowValid = [] := by
      rw [List.filter_eq_nil_iff]
      intro a ha
      have hv := List.all_eq_true.mp hnov a ha
      simp only [Bool.not_eq_true'] at hv
      simp [hv]
    rw [quiz_new_run]
    unfold quiz_new_qwrites
    rw [hfil]
    rfl
  · intro k hk
    unfold committedAfterAbort committedState quiz_new_actions
    have h2 : runActions db db [DbAction.write
        (DbWrite.insertQuiz (quizTitleOf title) now (some tid)),
        DbAction.commit]
        = (applyWrite db (DbWrite.insertQuiz (quizTitleOf title) now (some tid)),
           applyWrite db (DbWrite.insertQuiz (quizTitleOf title) now (some tid)))
        := rfl
    rw [List.take_append_eq_append_take, List.take_append_eq_append_take,
      List.take_of_length_le (l := [DbAction.write
        (DbWrite.insertQuiz (quizTitleOf title) now (some tid)),
        DbAction.commit]) (by simp; omega),
      List.append_assoc, runActions_append, h2]
    dsimp only
    refine (runActions_quizzes_stable _ ?_ _ _ rfl).trans ?_
    · intro a ha w hw s
      subst hw
      rcases List.mem_append.mp ha with hin | hin
      · rcases List.mem_map.mp (List.take_subset _ _ hin) with ⟨w', hw', he⟩
        unfold quiz_new_qwrites at hw'
        rcases List.mem_map.mp hw' with ⟨r, _, rfl⟩
        injection he with he2
        subst he2
        rfl
      · have hmem := List.take_subset _ _ hin
        simp at hmem
    · rfl

/-- C9 witness: a request with five partial rows still creates the quiz
row, with zero questions, and aborting three actions in keeps the quiz
row committed. -/
theorem quiz_new_row_committed_example :
    (quiz_new Store.empty (some "Q") rowsNoneValid "t0" 9).quizzes
      = Store.empty.quizzes
        ++ [⟨nextQuizId Store.empty, quizTitleOf (some "Q"), "t0", some 9⟩]
    ∧ (quiz_new Store.empty (some "Q") rowsNoneValid "t0" 9).quizQuestions
      = Store.empty.quizQuestions
    ∧ (committedAfterAbort Store.empty
        (quiz_new_actions Store.empty (some "Q") rowsNoneValid "t0" 9) 2).quizzes
      = Store.empty.quizzes
        ++ [⟨nextQuizId Store.empty, quizTitleOf (some "Q"), "t0", some 9⟩] :=
  ⟨(quiz_new_row_committed Store.empty (some "Q") rowsNoneValid "t0" 9).1,
   (quiz_new_row_committed Store.empty (some "Q") rowsNoneValid
      "t0" 9).2.1 (by decide),
   (quiz_new_row_committed Store.empty (some "Q") rowsNoneValid
      "t0" 9).2.2 2 (by omega)⟩

end ClassHub
